import Mathlib

/-!
Verification development for the `oml_integration` repository.

The repository implements an integration service between the LightboxTV
platform and the Open Media Logic (OML) platform.  The orchestration logic
lives in `src/modules/lightbox/services/integration.service.ts`
(`IntegrationService`); an older variant (`LightboxCampaignTrigger`) exists
in a second source file.  Here the `IntegrationService` pipeline is embedded
shallowly: the OML SDK client is modelled as a pure environment (`OmlEnv`)
giving the response of each remote endpoint, the service instance state
(identifier mapping cache, progress log) is threaded explicitly, thrown
exceptions become `Except String`, and every remote call that a run issues
is recorded in an `ApiCall` trace.  Wall-clock timestamps are abstracted by
a per-instance counter.
-/

set_option autoImplicit false

namespace OmlIntegration

/-- Result record of an integration run (interface `IntegrationResult`).
The TS `status` field is a union of string literals, kept as `String`. -/
structure IntegrationResult where
  success : Bool
  status : String
  project_id : Option Nat := none
  order_id : Option Nat := none
  mediaplan_ids : Option (List Nat) := none
  commercial_ids : Option (List Nat) := none
  spot_ids : Option (List Nat) := none
  error : Option String := none
  details : Option String := none
deriving DecidableEq

/-- One progress-log entry (interface `IntegrationProgress`).  The TS code
stores an ISO timestamp string; it is abstracted by the instance clock. -/
structure IntegrationProgress where
  step : String
  progress : Int
  message : String
  timestamp : Nat
deriving DecidableEq

/-- Configuration (interface `IntegrationConfig`); the optional progress
callback is ignored here since it only mirrors entries already recorded in
the progress log. -/
structure IntegrationConfig where
  omlBaseUrl : String
  omlUsername : String
  omlPassword : String
  yearId : Nat := 2025
  defaultPlacementTypeId : Nat := 1
  defaultCommercialTypeId : Nat := 1
  defaultCommercialVersionTypeId : Nat := 1
  maxRetries : Nat := 3
deriving DecidableEq

/-- Placement of a campaign (interface `LightboxTVPlacement`). -/
structure LightboxTVPlacement where
  id : Nat
  campaign_id : Nat
  channel_id : Nat
  brand_id : Nat
  target_audience_id : Nat
  start_date : String
  end_date : String
  budget : Int := 0
  priority : Nat := 0
  creative_ids : List Nat := []
deriving DecidableEq

/-- Campaign data (interface `LightboxTVCampaign`). -/
structure LightboxTVCampaign where
  id : Nat
  name : String
  start_date : String
  end_date : String
  budget : Int := 0
  advertiser_id : Nat
  status : String := ""
  creative_ids : List Nat := []
  placements : List LightboxTVPlacement
deriving DecidableEq

/-- Creative data (interface `LightboxTVCreative`). -/
structure LightboxTVCreative where
  id : Nat
  name : String
  duration : Nat := 0
  file_url : String := ""
  format : String := ""
  brand_id : Nat
  advertiser_id : Nat
deriving DecidableEq

/-- A record returned by the OML reference-dictionary listing endpoints
(advertisers, brands, channels, target audiences); only `id` is read. -/
structure OmlRecord where
  id : Nat
deriving DecidableEq

/-- A commercial record from the OML catalog (SDK type `Commercial`). -/
structure Commercial where
  id : Nat
  name : String := ""
  duration : Nat := 0
deriving DecidableEq

/-- A media plan record (SDK type `Mediaplan`); `commercials` is optional
in the SDK, hence `Option`. -/
structure Mediaplan where
  id : Nat
  date_from : String := ""
  date_to : String := ""
  commercials : Option (List Commercial) := none
deriving DecidableEq

/-- A block record (SDK type `Block`).  `auction_step_coeff` is an opaque
numeric payload never computed with, kept as `Int`. -/
structure Block where
  id : Nat
  channel_id : Nat := 0
  program_release_id : Nat := 0
  commercial_type_id : Nat := 0
  block_type_id : Nat := 0
  date_start_at : String := ""
  time_start_at : String := ""
  date_end_at : String := ""
  time_end_at : String := ""
  duration : Nat := 0
  auction_step_coeff : Int := 0
deriving DecidableEq

/-- A block entry inside the booking grid (SDK type `BlockWithGrps`). -/
structure BlockWithGrps where
  block_id : Nat
  block_commercial_type_id : Nat := 0
  block_type_id : Nat := 0
  block_date_start_at : String := ""
  block_time_start_at : String := ""
  block_date_end_at : String := ""
  block_time_end_at : String := ""
  block_duration : Nat := 0
  auction_step_coeff : Int := 0
deriving DecidableEq

/-- A program release entry of the booking grid; `blocks` may be absent
(the TS code guards `programRelease.blocks && ...`). -/
structure ProgramRelease where
  program_release_id : Nat
  blocks : Option (List BlockWithGrps) := none
deriving DecidableEq

/-- The booking grid: date keys in iteration order, each with its program
releases (`bookingResponse.data.grid`). -/
abbrev BookingGrid := List (String × List ProgramRelease)

/-- A reserved spot (SDK type `Spot`); the service never actually builds
one (its `spots` list stays empty), the type is kept for the signature. -/
structure Spot where
  id : Nat := 0
  commercial_id : Nat := 0
deriving DecidableEq

/-- Payload of the spot-attachment call (`spotData` in `reserveSpots`). -/
structure SpotData where
  commercial_id : Nat
  mediaplan_id : Nat
deriving DecidableEq

/-- The four reference-dictionary entity types used as keys of the mapping
cache (`"advertisers"`, `"brands"`, `"channels"`, `"targetAudiences"`). -/
inductive EntityType where
  | advertisers
  | brands
  | channels
  | targetAudiences
deriving DecidableEq

/-- The string key a given entity type is stored under in the TS cache. -/
def EntityType.str : EntityType → String
  | .advertisers => "advertisers"
  | .brands => "brands"
  | .channels => "channels"
  | .targetAudiences => "targetAudiences"

/-- One entity type's mapping table (`Map<number, number>` from local
LightboxTV id to remote OML id), as an association list in insertion
order — JS `Map` iterates in insertion order. -/
abbrev EntityMap := List (Nat × Nat)

/-- `Map.get`: the value stored under a key, or `none`. -/
def lookupId : EntityMap → Nat → Option Nat
  | [], _ => none
  | (k, v) :: rest, key => if k = key then some v else lookupId rest key

/-- `Map.set`: overwrite the entry if the key is present (keeping its
position), otherwise append, as JS `Map.set` does. -/
def mapSet (m : EntityMap) (k v : Nat) : EntityMap :=
  if (lookupId m k).isSome then
    m.map (fun p => if p.1 = k then (k, v) else p)
  else m ++ [(k, v)]

/-- The identifier mapping cache
(`Map<string, Map<number, number>>` restricted to its four actual keys). -/
structure MappingCache where
  advertisers : EntityMap
  brands : EntityMap
  channels : EntityMap
  targetAudiences : EntityMap
deriving DecidableEq

/-- `mappingCache.get(entityType)`. -/
def MappingCache.get (mc : MappingCache) : EntityType → EntityMap
  | .advertisers => mc.advertisers
  | .brands => mc.brands
  | .channels => mc.channels
  | .targetAudiences => mc.targetAudiences

/-- Replace one entity type's table in the cache. -/
def MappingCache.setTable (mc : MappingCache) : EntityType → EntityMap → MappingCache
  | .advertisers, m => { mc with advertisers := m }
  | .brands, m => { mc with brands := m }
  | .channels, m => { mc with channels := m }
  | .targetAudiences, m => { mc with targetAudiences := m }

/-- Per-instance service state: the mapping cache and progress log are
fields of the `IntegrationService` instance; `clock` abstracts wall-clock
timestamps. -/
structure SvcState where
  mappingCache : MappingCache
  progressLog : List IntegrationProgress
  clock : Nat
deriving DecidableEq

/-- The state established by the `IntegrationService` constructor: the four
entity tables are created empty and the progress log starts empty. -/
def initialServiceState : SvcState :=
  { mappingCache := { advertisers := [], brands := [], channels := [], targetAudiences := [] },
    progressLog := [], clock := 0 }

/-- Every remote OML SDK call a run can issue, for the observable trace. -/
inductive ApiCall where
  | login
  | getAdvertisers
  | getBrands
  | getChannels
  | getTargetAudiences
  | getChannelBooking (channelId : Nat)
  | getBlockById (blockId : Nat)
  | getCommercials
  | getMediaplans
  | addSpotToBlock (blockId : Option Nat) (commercialId : Nat) (mediaplanId : Nat)
deriving DecidableEq

/-- Calls belonging to the pipeline steps after dictionary sync: block
search, commercial catalog fetch and spot reservation. -/
def ApiCall.isLaterStep : ApiCall → Bool
  | .getChannelBooking _ => true
  | .getBlockById _ => true
  | .getCommercials => true
  | .getMediaplans => true
  | .addSpotToBlock _ _ _ => true
  | _ => false

/-- The OML platform as a deterministic environment: the response of each
endpoint the service calls (`OpenMediaLogicClient`).  A rejected promise is
an `Except.error` carrying the error message. -/
structure OmlEnv where
  loginResult : Except String Unit
  advertisersResult : Except String (List OmlRecord)
  brandsResult : Except String (List OmlRecord)
  channelsResult : Except String (List OmlRecord)
  targetAudiencesResult : Except String (List OmlRecord)
  channelBookingResult : Nat → String → String → Except String BookingGrid
  blockByIdResult : Nat → Except String Block
  commercialsResult : Except String (List Commercial)
  mediaplansResult : Except String (List Mediaplan)
  addSpotResult : Option Nat → SpotData → Except String Block
  token : Option String

/-- `logProgress`: append an entry to the instance progress log (the
optional callback only echoes the same entry and is not modelled). -/
def logProgress (s : SvcState) (step : String) (progress : Int) (message : String) : SvcState :=
  { s with
    progressLog := s.progressLog ++
      [{ step := step, progress := progress, message := message, timestamp := s.clock }],
    clock := s.clock + 1 }

/-- `getErrorDetails`: the error message followed by the last 3 progress
entries (`progressLog.slice(-3)`), one formatted line each. -/
def getErrorDetails (message : String) (log : List IntegrationProgress) : String :=
  "Помилка в процесі інтеграції: " ++ message ++ "\nОстанні етапи інтеграції:\n" ++
    String.intercalate "\n" ((log.drop (log.length - 3)).map (fun p =>
      "- " ++ toString p.timestamp ++ ": " ++ p.step ++ " (" ++ toString p.progress ++ "%) - " ++ p.message))

/-- Stubbed LightboxTV record (`fetchLightbox*` return `{ id, name }`,
the brand stub additionally a fixed advertiser reference). -/
structure LightboxRecord where
  id : Nat
  name : String
  advertiser_id : Option Nat := none
deriving DecidableEq

/-- `fetchLightboxAdvertiser` stub. -/
def fetchLightboxAdvertiser (id : Nat) : LightboxRecord :=
  { id := id, name := "Advertiser " ++ toString id }

/-- `fetchLightboxBrand` stub. -/
def fetchLightboxBrand (id : Nat) : LightboxRecord :=
  { id := id, name := "Brand " ++ toString id, advertiser_id := some 1 }

/-- `fetchLightboxChannel` stub. -/
def fetchLightboxChannel (id : Nat) : LightboxRecord :=
  { id := id, name := "Channel " ++ toString id }

/-- `fetchLightboxTargetAudience` stub. -/
def fetchLightboxTargetAudience (id : Nat) : LightboxRecord :=
  { id := id, name := "TargetAudience " ++ toString id }

/-- `authenticate`: one login call; a rejection is rethrown with the
`Помилка аутентифікації в OML` prefix. -/
def authenticate (env : OmlEnv) (tr : List ApiCall) : List ApiCall × Except String Unit :=
  match env.loginResult with
  | .ok _ => (tr ++ [.login], .ok ())
  | .error e => (tr ++ [.login], .error ("Помилка аутентифікації в OML: " ++ e))

/-- Not-found message thrown by `syncAdvertisers`. -/
def advertiserNotFoundMsg (id : Nat) : String :=
  "Рекламодавець з ім\x27ям " ++ (fetchLightboxAdvertiser id).name ++ " не знайдений в OML"

/-- Not-found message thrown by `syncBrands`. -/
def brandNotFoundMsg (id : Nat) : String :=
  "Бренд з ім\x27ям " ++ (fetchLightboxBrand id).name ++ " не знайдений в OML"

/-- Not-found message thrown by `syncChannels`. -/
def channelNotFoundMsg (id : Nat) : String :=
  "Канал з ім\x27ям " ++ (fetchLightboxChannel id).name ++ " не знайдений в OML"

/-- Not-found message thrown by `syncTargetAudiences`. -/
def targetAudienceNotFoundMsg (id : Nat) : String :=
  "Цільова аудиторія з ім\x27ям " ++ (fetchLightboxTargetAudience id).name ++ " не знайдена в OML"

/-- The shared loop body of the four `sync*` methods: for each local id,
skip it if already mapped; otherwise issue the (unfiltered) remote listing
call and map the id to the first returned record's id, throwing the
not-found message when the listing is empty.  Besides the updated table it
returns the list of local ids for which a remote lookup was issued. -/
def syncLoop (call : ApiCall) (fetchRes : Except String (List OmlRecord)) (notFound : Nat → String) :
    List Nat → EntityMap → List ApiCall → List ApiCall × Except String (EntityMap × List Nat)
  | [], m, tr => (tr, .ok (m, []))
  | lbxId :: rest, m, tr =>
    if (lookupId m lbxId).isSome then
      -- Вже синхронізовано
      syncLoop call fetchRes notFound rest m tr
    else
      match fetchRes with
      | .error e => (tr ++ [call], .error e)
      | .ok data =>
        match data.head? with
        | some r =>
          match syncLoop call fetchRes notFound rest (mapSet m lbxId r.id) (tr ++ [call]) with
          | (tr', .ok (m', lk)) => (tr', .ok (m', lbxId :: lk))
          | (tr', .error e) => (tr', .error e)
        | none => (tr ++ [call], .error (notFound lbxId))

/-- `syncAdvertisers`. -/
def syncAdvertisers (env : OmlEnv) (ids : List Nat) (m : EntityMap) (tr : List ApiCall) :
    List ApiCall × Except String (EntityMap × List Nat) :=
  syncLoop .getAdvertisers env.advertisersResult advertiserNotFoundMsg ids m tr

/-- `syncBrands`. -/
def syncBrands (env : OmlEnv) (ids : List Nat) (m : EntityMap) (tr : List ApiCall) :
    List ApiCall × Except String (EntityMap × List Nat) :=
  syncLoop .getBrands env.brandsResult brandNotFoundMsg ids m tr

/-- `syncChannels`. -/
def syncChannels (env : OmlEnv) (ids : List Nat) (m : EntityMap) (tr : List ApiCall) :
    List ApiCall × Except String (EntityMap × List Nat) :=
  syncLoop .getChannels env.channelsResult channelNotFoundMsg ids m tr

/-- `syncTargetAudiences`. -/
def syncTargetAudiences (env : OmlEnv) (ids : List Nat) (m : EntityMap) (tr : List ApiCall) :
    List ApiCall × Except String (EntityMap × List Nat) :=
  syncLoop .getTargetAudiences env.targetAudiencesResult targetAudienceNotFoundMsg ids m tr

/-- Dispatch a dictionary sync by entity type. -/
def syncDict (env : OmlEnv) : EntityType → List Nat → EntityMap → List ApiCall →
    List ApiCall × Except String (EntityMap × List Nat)
  | .advertisers => syncAdvertisers env
  | .brands => syncBrands env
  | .channels => syncChannels env
  | .targetAudiences => syncTargetAudiences env

/-- First-occurrence deduplication, the effect of collecting ids through a
JS `Set` and `Array.from` (insertion order preserved). -/
def dedupFirst (l : List Nat) : List Nat :=
  l.foldl (fun acc x => if x ∈ acc then acc else acc ++ [x]) []

/-- `syncReferenceDictionaries`: advertisers, then brands (deduplicated ids
from placements then creatives), then channels and target audiences (ids
from placements, not deduplicated); any error is rethrown with the
`Помилка синхронізації довідників` prefix. -/
def syncReferenceDictionaries (env : OmlEnv) (campaign : LightboxTVCampaign)
    (creatives : List LightboxTVCreative) (mc : MappingCache) (tr : List ApiCall) :
    List ApiCall × Except String MappingCache :=
  match syncAdvertisers env [campaign.advertiser_id] mc.advertisers tr with
  | (tr1, .error e) => (tr1, .error ("Помилка синхронізації довідників: " ++ e))
  | (tr1, .ok (mAdv, _)) =>
    let mc1 : MappingCache := { mc with advertisers := mAdv }
    let brandIds := dedupFirst
      (campaign.placements.map (fun p => p.brand_id) ++ creatives.map (fun c => c.brand_id))
    match syncBrands env brandIds mc1.brands tr1 with
    | (tr2, .error e) => (tr2, .error ("Помилка синхронізації довідників: " ++ e))
    | (tr2, .ok (mBr, _)) =>
      let mc2 : MappingCache := { mc1 with brands := mBr }
      match syncChannels env (campaign.placements.map (fun p => p.channel_id)) mc2.channels tr2 with
      | (tr3, .error e) => (tr3, .error ("Помилка синхронізації довідників: " ++ e))
      | (tr3, .ok (mCh, _)) =>
        let mc3 : MappingCache := { mc2 with channels := mCh }
        match syncTargetAudiences env (campaign.placements.map (fun p => p.target_audience_id))
            mc3.targetAudiences tr3 with
        | (tr4, .error e) => (tr4, .error ("Помилка синхронізації довідників: " ++ e))
        | (tr4, .ok (mTa, _)) => (tr4, .ok { mc3 with targetAudiences := mTa })

/-- `getMappedIdOrThrow`. -/
def getMappedIdOrThrow (mc : MappingCache) (et : EntityType) (lbxId : Nat) : Except String Nat :=
  match lookupId (mc.get et) lbxId with
  | some v => .ok v
  | none => .error ("Не знайдено маппінг для " ++ et.str ++ " з ID " ++ toString lbxId)

/-- `getReverseMappedId`'s entry iteration: the first entry whose mapped
value equals the given remote id, in insertion order. -/
def reverseLookupLoop (omlId : Nat) : EntityMap → Option Nat
  | [] => none
  | (lbxId, mappedOmlId) :: rest =>
    if mappedOmlId = omlId then some lbxId else reverseLookupLoop omlId rest

/-- `getReverseMappedId`. -/
def getReverseMappedId (mc : MappingCache) (et : EntityType) (omlId : Nat) : Option Nat :=
  reverseLookupLoop omlId (mc.get et)

/-- Innermost loop of `findBlocksForPlacement`: convert each selected
`BlockWithGrps` to a `Block` record, then fetch and keep the full block via
`getBlockById`. -/
def blocksLoop (env : OmlEnv) (omlChannelId prId : Nat) :
    List BlockWithGrps → List ApiCall → List ApiCall × Except String (List Block)
  | [], tr => (tr, .ok [])
  | bw :: rest, tr =>
    let block : Block :=
      { id := bw.block_id, channel_id := omlChannelId, program_release_id := prId,
        commercial_type_id := bw.block_commercial_type_id, block_type_id := bw.block_type_id,
        date_start_at := bw.block_date_start_at, time_start_at := bw.block_time_start_at,
        date_end_at := bw.block_date_end_at, time_end_at := bw.block_time_end_at,
        duration := bw.block_duration, auction_step_coeff := bw.auction_step_coeff }
    match env.blockByIdResult block.id with
    | .error e => (tr ++ [.getBlockById block.id], .error e)
    | .ok fullBlock =>
      match blocksLoop env omlChannelId prId rest (tr ++ [.getBlockById block.id]) with
      | (tr', .ok bs) => (tr', .ok (fullBlock :: bs))
      | (tr', .error e) => (tr', .error e)

/-- Per-date loop of `findBlocksForPlacement`: for each program release
with a non-empty block list, process the first 5 blocks (`slice(0, 5)`). -/
def programReleasesLoop (env : OmlEnv) (omlChannelId : Nat) :
    List ProgramRelease → List ApiCall → List ApiCall × Except String (List Block)
  | [], tr => (tr, .ok [])
  | pr :: rest, tr =>
    let availableBlocks : List BlockWithGrps :=
      match pr.blocks with
      | some bs => if bs.length > 0 then bs.take 5 else []
      | none => []
    match blocksLoop env omlChannelId pr.program_release_id availableBlocks tr with
    | (tr1, .error e) => (tr1, .error e)
    | (tr1, .ok bs1) =>
      match programReleasesLoop env omlChannelId rest tr1 with
      | (tr2, .ok bs2) => (tr2, .ok (bs1 ++ bs2))
      | (tr2, .error e) => (tr2, .error e)

/-- Outer loop of `findBlocksForPlacement` over the grid's dates in
iteration order (`Object.keys(bookingResponse.data.grid)`). -/
def gridLoop (env : OmlEnv) (omlChannelId : Nat) :
    BookingGrid → List ApiCall → List ApiCall × Except String (List Block)
  | [], tr => (tr, .ok [])
  | (_, programReleases) :: rest, tr =>
    match programReleasesLoop env omlChannelId programReleases tr with
    | (tr1, .error e) => (tr1, .error e)
    | (tr1, .ok bs1) =>
      match gridLoop env omlChannelId rest tr1 with
      | (tr2, .ok bs2) => (tr2, .ok (bs1 ++ bs2))
      | (tr2, .error e) => (tr2, .error e)

/-- `findBlocksForPlacement`: resolve the hardcoded channel id 9 through
the mapping cache, fetch the booking grid for the date range, and walk it;
every error is rethrown with the `Помилка при пошуку блоків` prefix. -/
def findBlocksForPlacement (env : OmlEnv) (mc : MappingCache) (start_date end_date : String)
    (tr : List ApiCall) : List ApiCall × Except String (List Block) :=
  match getMappedIdOrThrow mc .channels 9 with
  | .error e => (tr, .error ("Помилка при пошуку блоків для розміщення: " ++ e))
  | .ok omlChannelId =>
    match env.channelBookingResult omlChannelId start_date end_date with
    | .error e =>
      (tr ++ [.getChannelBooking omlChannelId],
       .error ("Помилка при пошуку блоків для розміщення: " ++ e))
    | .ok grid =>
      match gridLoop env omlChannelId grid (tr ++ [.getChannelBooking omlChannelId]) with
      | (tr', .error e) => (tr', .error ("Помилка при пошуку блоків для розміщення: " ++ e))
      | (tr', .ok blocks) => (tr', .ok blocks)

/-- Matching loop of `findAndMapCommercials`: for each creative, push the
first catalog record with the same id (`data.find(el => el.id === creative.id)`). -/
def findAndMapLoop (catalog : List Commercial) : List LightboxTVCreative → List Commercial
  | [] => []
  | creative :: rest =>
    match catalog.find? (fun el => el.id == creative.id) with
    | some found => found :: findAndMapLoop catalog rest
    | none => findAndMapLoop catalog rest

/-- `findAndMapCommercials`: one catalog fetch (`getCommercials`, with
`per_page: 10000`) then pure id matching; a fetch rejection is rethrown
with the `Помилка при пошуку комерційних матеріалів` prefix. -/
def findAndMapCommercials (env : OmlEnv) (creatives : List LightboxTVCreative)
    (tr : List ApiCall) : List ApiCall × Except String (List Commercial) :=
  match env.commercialsResult with
  | .error e =>
    (tr ++ [.getCommercials], .error ("Помилка при пошуку комерційних матеріалів: " ++ e))
  | .ok data => (tr ++ [.getCommercials], .ok (findAndMapLoop data creatives))

/-- Render `${block?.id}`: the id, or `undefined` when the block is absent. -/
def optIdStr : Option Nat → String
  | some n => toString n
  | none => "undefined"

/-- The reproducible curl request string logged by `reserveSpots` on an
attach failure (braces of the JSON body written as escapes). -/
def curlString (baseUrl token : String) (blockId : Option Nat)
    (commercialId mediaplanId : Nat) : String :=
  "curl -X POST \"" ++ baseUrl ++ "/api/blocks/" ++ optIdStr blockId ++ "/spots\" \\\n" ++
  "            -H \"Authorization: Bearer " ++ token ++ "\" \\\n" ++
  "            -H \"Content-Type: application/json\" \\\n" ++
  "            -d \x27\x7b\"commercial_id\":" ++ toString commercialId ++
  ",\"mediaplan_id\":" ++ toString mediaplanId ++ "\x7d\x27"

/-- `reserveSpots`: fetch the media plans (`per_page: 10000`), pick the one
with id 42338 and its first commercial; if either is missing log and return
the empty list; otherwise attach a spot to the given block — on attach
failure log the error and the curl reproduction and fall through to
`return spots` (the `spots` array is never pushed to, so the successful
branch also returns the empty list).  Only a `getMediaplans` rejection is
rethrown, with the `Помилка при бронюванні спотів` prefix.  Besides the
trace it returns the console lines printed. -/
def reserveSpots (cfg : IntegrationConfig) (env : OmlEnv) (block : Option Block)
    (tr : List ApiCall) : List ApiCall × List String × Except String (List Spot) :=
  match env.mediaplansResult with
  | .error e =>
    (tr ++ [.getMediaplans], [], .error ("Помилка при бронюванні спотів: " ++ e))
  | .ok mps =>
    let tr1 := tr ++ [ApiCall.getMediaplans]
    let mediaplan := mps.find? (fun el => el.id == 42338)
    let commercial := mediaplan.bind (fun mp => mp.commercials.bind List.head?)
    match commercial with
    | none => (tr1, ["not found commercial"], .ok [])
    | some c =>
      match mediaplan with
      | none => (tr1, ["not found mediaplan"], .ok [])
      | some mp =>
        let spotData : SpotData := { commercial_id := c.id, mediaplan_id := mp.id }
        let callId : Option Nat := block.map (fun b => b.id)
        match env.addSpotResult callId spotData with
        | .ok _updatedBlock => (tr1 ++ [.addSpotToBlock callId c.id mp.id], [], .ok [])
        | .error e =>
          let token := env.token.getD "TOKEN_NOT_AVAILABLE"
          (tr1 ++ [.addSpotToBlock callId c.id mp.id],
           ["Помилка бронювання споту в блоці " ++ optIdStr callId ++ ": " ++ e,
            "Запит, що викликав помилку: " ++
              curlString cfg.omlBaseUrl token callId c.id mp.id],
           .ok [])

/-- The body of `handleCampaignPublish`'s `try` block: the five steps in
order with their progress entries, threading state, trace and console
output; the first thrown error stops the pipeline. -/
def runPipeline (cfg : IntegrationConfig) (env : OmlEnv) (campaign : LightboxTVCampaign)
    (creatives : List LightboxTVCreative) (s : SvcState) (tr : List ApiCall) :
    SvcState × List ApiCall × List String × Except String Unit :=
  match authenticate env tr with
  | (tr1, .error e) => (s, tr1, [], .error e)
  | (tr1, .ok _) =>
    let s1 := logProgress s "authentication" 5 "Аутентифікація в OML успішна"
    match syncReferenceDictionaries env campaign creatives s1.mappingCache tr1 with
    | (tr2, .error e) => (s1, tr2, [], .error e)
    | (tr2, .ok mc2) =>
      let s2 := logProgress { s1 with mappingCache := mc2 } "sync_dictionaries" 15
        "Довідники синхронізовано"
      match findBlocksForPlacement env s2.mappingCache campaign.start_date campaign.end_date tr2 with
      | (tr3, .error e) => (s2, tr3, [], .error e)
      | (tr3, .ok blocksForPlacement) =>
        let s3 := logProgress s2 "find_blocks" 30
          ("Знайдено " ++ toString blocksForPlacement.length ++ " блоків для розміщення")
        match findAndMapCommercials env creatives tr3 with
        | (tr4, .error e) => (s3, tr4, [], .error e)
        | (tr4, .ok commercials) =>
          let s4 := logProgress s3 "map_commercials" 50
            ("Знайдено відповідність для " ++ toString commercials.length ++ " рекламних матеріалів")
          -- `blocksForPlacement[0]!` is an unchecked non-null assertion: on an
          -- empty list it passes `undefined`, i.e. `none`.
          match reserveSpots cfg env blocksForPlacement.head? tr4 with
          | (tr5, con, .error e) => (s4, tr5, con, .error e)
          | (tr5, con, .ok _spots) =>
            let s5 := logProgress s4 "reserve_spots" 80 "Заброньовано 1 спотів в OML"
            (s5, tr5, con, .ok ())

/-- `handleCampaignPublish`: log the start entry, run the pipeline, and on
success return the fixed complete result (the `commercial_ids` and
`spot_ids` lines are commented out in the source); any thrown error is
caught, logged as a failed entry and converted into a failed result whose
details come from `getErrorDetails`. -/
def handleCampaignPublish (cfg : IntegrationConfig) (env : OmlEnv)
    (campaign : LightboxTVCampaign) (creatives : List LightboxTVCreative) (s : SvcState) :
    IntegrationResult × SvcState × List ApiCall × List String :=
  let s0 := logProgress s "start" 0 "Початок інтеграції кампанії"
  match runPipeline cfg env campaign creatives s0 [] with
  | (s', tr, con, .ok _) =>
    let result : IntegrationResult :=
      { success := true, status := "complete",
        -- commercial_ids: commercials.map((c) => c.id as number),
        -- spot_ids: spots.map((s) => s.id as number),
        details := some "Інтеграція кампанії успішно завершена" }
    (result, logProgress s' "complete" 100 "Інтеграція успішно завершена", tr, con)
  | (s', tr, con, .error msg) =>
    let sE := logProgress s' "error" (-1) ("Помилка інтеграції: " ++ msg)
    ({ success := false, status := "failed", error := some msg,
       details := some (getErrorDetails msg sE.progressLog) }, sE, tr, con)

/-- The block entries a program-release entry contributes from:
`blocks` defaulted to empty, capped at the first 5. -/
def availableBlocksOf (pr : ProgramRelease) : List BlockWithGrps :=
  (pr.blocks.getD []).take 5

/-- Characterization of `findBlocksForPlacement`'s result: grid iteration
order (dates, then program releases, then the capped block entries), each
entry enriched through the per-block lookup `f`. -/
def gridBlocksResult (f : Nat → Block) (grid : BookingGrid) : List Block :=
  grid.flatMap (fun entry =>
    entry.2.flatMap (fun pr => (availableBlocksOf pr).map (fun bw => f bw.block_id)))

/-- The per-block lookup calls `findBlocksForPlacement` issues, in order. -/
def gridBlockCalls (grid : BookingGrid) : List ApiCall :=
  grid.flatMap (fun entry =>
    entry.2.flatMap (fun pr =>
      (availableBlocksOf pr).map (fun bw => ApiCall.getBlockById bw.block_id)))

/-! Concrete instances used to exercise the theorems. -/

/-- A neutral environment: every call succeeds with empty data. -/
def envBase : OmlEnv :=
  { loginResult := .ok (), advertisersResult := .ok [], brandsResult := .ok [],
    channelsResult := .ok [], targetAudiencesResult := .ok [],
    channelBookingResult := fun _ _ _ => .ok [],
    blockByIdResult := fun n => .ok { id := n },
    commercialsResult := .ok [], mediaplansResult := .ok [],
    addSpotResult := fun _ _ => .ok { id := 0 }, token := none }

/-- A neutral configuration. -/
def cfgBase : IntegrationConfig :=
  { omlBaseUrl := "https://ge-api.omldev.org", omlUsername := "u", omlPassword := "p" }

/-- A creative with id 1 (duplicate-catalog scenario). -/
def crDup : LightboxTVCreative :=
  { id := 1, name := "cr", brand_id := 1, advertiser_id := 1 }

/-- First catalog record with id 1. -/
def comDupA : Commercial := { id := 1, name := "A", duration := 10 }

/-- Second, distinct catalog record with the same id 1. -/
def comDupB : Commercial := { id := 1, name := "B", duration := 10 }

/-- Creative with id 201 (the spec's worked example). -/
def cr201 : LightboxTVCreative :=
  { id := 201, name := "c201", brand_id := 1, advertiser_id := 1 }

/-- Creative with id 202 (the spec's worked example). -/
def cr202 : LightboxTVCreative :=
  { id := 202, name := "c202", brand_id := 1, advertiser_id := 1 }

/-- Catalog commercial with id 201. -/
def com201 : Commercial := { id := 201, name := "c201", duration := 15 }

/-- A campaign whose only placement references channel 9 (the id the block
search hardcodes), brand 1 and target audience 1. -/
def campaignCh9 : LightboxTVCampaign :=
  { id := 1, name := "camp", start_date := "2025-04-01", end_date := "2025-04-30",
    advertiser_id := 1,
    placements := [{ id := 1, campaign_id := 1, channel_id := 9, brand_id := 1,
                     target_audience_id := 1, start_date := "2025-04-01",
                     end_date := "2025-04-30" }] }

/-- A campaign with no placements (only the advertiser gets synced). -/
def campaignNoPlacements : LightboxTVCampaign :=
  { id := 2, name := "camp2", start_date := "2025-04-01", end_date := "2025-04-30",
    advertiser_id := 1, placements := [] }

/-- Environment for the repeat-invocation scenario: one advertiser record;
the block search then fails because channel 9 is never referenced. -/
def envRepeat : OmlEnv := { envBase with advertisersResult := .ok [{ id := 7 }] }

/-- Environment in which authentication is rejected. -/
def envAuthFail : OmlEnv := { envBase with loginResult := .error "Невірні облікові дані" }

/-- Environment for the fully successful run: all four dictionaries have a
record, the booking grid is empty, the commercial catalog holds id 201 and
there are no media plans. -/
def envComplete : OmlEnv :=
  { envBase with
    advertisersResult := .ok [{ id := 11 }], brandsResult := .ok [{ id := 12 }],
    channelsResult := .ok [{ id := 13 }], targetAudiencesResult := .ok [{ id := 14 }],
    commercialsResult := .ok [com201] }

/-- Environment for the missing-block scenario, parametrized by the media
plan catalog and the attach-call outcome: dictionaries resolve, the booking
grid is empty so no block is found. -/
def envNoBlocks (mps : List Mediaplan) (addRes : Except String Block) : OmlEnv :=
  { envBase with
    advertisersResult := .ok [{ id := 11 }], brandsResult := .ok [{ id := 12 }],
    channelsResult := .ok [{ id := 13 }], targetAudiencesResult := .ok [{ id := 14 }],
    mediaplansResult := .ok mps,
    addSpotResult := fun _ _ => addRes }

/-- Media plan 42338 carrying one commercial (id 77). -/
def mp42338 : Mediaplan :=
  { id := 42338, date_from := "2025-04-01", date_to := "2025-04-30",
    commercials := some [{ id := 77 }] }

/-- Environment whose spot-attachment call is rejected. -/
def envAttachFail : OmlEnv :=
  { envBase with
    mediaplansResult := .ok [mp42338],
    addSpotResult := fun _ _ => .error "boom", token := some "T0KEN" }

/-- A grid with one date and one program release holding 7 block entries. -/
def gridSeven : BookingGrid :=
  [("2025-04-26",
    [{ program_release_id := 1,
       blocks := some [{ block_id := 1 }, { block_id := 2 }, { block_id := 3 },
                       { block_id := 4 }, { block_id := 5 }, { block_id := 6 },
                       { block_id := 7 }] }])]

/-- Environment returning `gridSeven` for every booking query and channel
record 13 (so local channel 9 maps to 13). -/
def envGridSeven : OmlEnv :=
  { envBase with
    channelsResult := .ok [{ id := 13 }],
    channelBookingResult := fun _ _ _ => .ok gridSeven }

/-! ### Helper lemmas -/

theorem lookupId_nil (k : Nat) : lookupId [] k = none := rfl

theorem lookupId_append_of_some {m : EntityMap} {k v : Nat} (l : EntityMap)
    (h : lookupId m k = some v) : lookupId (m ++ l) k = some v := by
  induction m with
  | nil => simp [lookupId] at h
  | cons p rest ih =>
    obtain ⟨a, b⟩ := p
    by_cases hak : a = k
    · subst hak
      simp [lookupId] at h ⊢
      exact h
    · simp [lookupId, hak] at h ⊢
      exact ih h

theorem lookupId_append_of_none {m : EntityMap} {k : Nat} (l : EntityMap)
    (h : lookupId m k = none) : lookupId (m ++ l) k = lookupId l k := by
  induction m with
  | nil => simp
  | cons p rest ih =>
    obtain ⟨a, b⟩ := p
    by_cases hak : a = k
    · subst hak; simp [lookupId] at h
    · simp [lookupId, hak] at h ⊢
      exact ih h

theorem lookupId_singleton_self (k v : Nat) : lookupId [(k, v)] k = some v := by
  simp [lookupId]

theorem mapSet_of_unmapped {m : EntityMap} {k : Nat} (v : Nat)
    (h : lookupId m k = none) : mapSet m k v = m ++ [(k, v)] := by
  simp [mapSet, h]

/-! ### C1: creative-to-commercial matching by id equality -/

theorem find?_id_eq_self {catalog : List Commercial}
    (hnd : (catalog.map (fun c => c.id)).Nodup) {r : Commercial} (hr : r ∈ catalog) :
    catalog.find? (fun el => el.id == r.id) = some r := by
  induction catalog with
  | nil => simp at hr
  | cons a rest ih =>
    simp only [List.map_cons, List.nodup_cons] at hnd
    rcases List.mem_cons.mp hr with rfl | hmem
    · simp [List.find?]
    · have hne : (a.id == r.id) = false := by
        apply beq_false_of_ne
        intro hEq
        exact hnd.1 (hEq ▸ List.mem_map_of_mem (fun c => c.id) hmem)
      simp [List.find?, hne]
      exact ih hnd.2 hmem

/-- Claim C1 (amended): with pairwise distinct catalog ids,
`findAndMapCommercials` returns, membership-wise, exactly the catalog
records whose id equals the id of some input creative. -/
theorem C1_findAndMapCommercials_id_matching (env : OmlEnv)
    (creatives : List LightboxTVCreative) (catalog : List Commercial) (tr : List ApiCall)
    (hcat : env.commercialsResult = .ok catalog)
    (hnd : (catalog.map (fun c => c.id)).Nodup) :
    ∃ matched, (findAndMapCommercials env creatives tr).2 = .ok matched ∧
      ∀ r, r ∈ matched ↔ (r ∈ catalog ∧ ∃ c ∈ creatives, r.id = c.id) := by
  refine ⟨findAndMapLoop catalog creatives, by simp [findAndMapCommercials, hcat], ?_⟩
  intro r
  induction creatives with
  | nil => simp [findAndMapLoop]
  | cons c rest ih =>
    simp only [findAndMapLoop]
    cases hf : catalog.find? (fun el => el.id == c.id) with
    | none =>
      rw [ih]
      constructor
      · rintro ⟨hmem, c', hc', hid⟩
        exact ⟨hmem, c', List.mem_cons_of_mem _ hc', hid⟩
      · rintro ⟨hmem, c', hc', hid⟩
        rcases List.mem_cons.mp hc' with rfl | hc''
        · exfalso
          have hsome : catalog.find? (fun el => el.id == c'.id) = some r := by
            have := find?_id_eq_self hnd hmem
            rw [hid] at this
            exact this
          rw [hsome] at hf
          exact Option.noConfusion hf
        · exact ⟨hmem, c', hc'', hid⟩
    | some found =>
      have hfoundMem : found ∈ catalog := List.mem_of_find?_eq_some hf
      have hfoundId : found.id = c.id := by
        have h1 := List.find?_some hf
        exact eq_of_beq h1
      constructor
      · intro hr
        rcases List.mem_cons.mp hr with rfl | hr'
        · exact ⟨hfoundMem, c, List.mem_cons_self _ _, hfoundId⟩
        · obtain ⟨hmem, c', hc', hid⟩ := (ih).mp hr'
          exact ⟨hmem, c', List.mem_cons_of_mem _ hc', hid⟩
      · rintro ⟨hmem, c', hc', hid⟩
        rcases List.mem_cons.mp hc' with rfl | hc''
        · have hsome : catalog.find? (fun el => el.id == c'.id) = some r := by
            have := find?_id_eq_self hnd hmem
            rw [hid] at this
            exact this
          rw [hsome] at hf
          have hfr : r = found := (Option.some.injEq _ _).mp hf
          exact hfr ▸ List.mem_cons_self _ _
        · exact List.mem_cons_of_mem _ ((ih).mpr ⟨hmem, c', hc'', hid⟩)

/-- Claim C1, counterexample to the literal statement: with two distinct
catalog records sharing id 1, the second one has an id equal to a creative
id but is not returned. -/
theorem C1_counterexample :
    (findAndMapCommercials { envBase with commercialsResult := .ok [comDupA, comDupB] }
        [crDup] []).2 = .ok [comDupA] ∧
    comDupB ∈ [comDupA, comDupB] ∧ comDupB.id = crDup.id ∧ comDupB ∉ [comDupA] := by
  refine ⟨rfl, by decide, rfl, by decide⟩

/-- Claim C1, witness: the spec's worked example (creatives 201 and 202,
catalog holding only 201) through the amended theorem. -/
theorem C1_findAndMapCommercials_witness :
    ∃ matched,
      (findAndMapCommercials { envBase with commercialsResult := .ok [com201] }
          [cr201, cr202] []).2 = .ok matched ∧
      ∀ r, r ∈ matched ↔ (r ∈ [com201] ∧ ∃ c ∈ [cr201, cr202], r.id = c.id) :=
  C1_findAndMapCommercials_id_matching _ _ _ _ rfl (by decide)

/-! ### C9: reverse mapping lookup -/

theorem reverseLookupLoop_some_mem {omlId k : Nat} {m : EntityMap}
    (h : reverseLookupLoop omlId m = some k) : (k, omlId) ∈ m := by
  induction m with
  | nil => simp [reverseLookupLoop] at h
  | cons p rest ih =>
    obtain ⟨a, b⟩ := p
    by_cases hb : b = omlId
    · subst hb
      simp [reverseLookupLoop] at h
      subst h
      exact List.mem_cons_self _ _
    · simp [reverseLookupLoop, hb] at h
      exact List.mem_cons_of_mem _ (ih h)

theorem reverseLookupLoop_none {omlId : Nat} {m : EntityMap} :
    reverseLookupLoop omlId m = none ↔ ∀ p ∈ m, p.2 ≠ omlId := by
  induction m with
  | nil => simp [reverseLookupLoop]
  | cons p rest ih =>
    obtain ⟨a, b⟩ := p
    by_cases hb : b = omlId
    · subst hb; simp [reverseLookupLoop]
    · simp [reverseLookupLoop, hb, ih]

theorem reverseLookupLoop_mem_some {omlId k : Nat} {m : EntityMap}
    (hinj : ∀ p ∈ m, ∀ q ∈ m, p.2 = q.2 → p = q)
    (hmem : (k, omlId) ∈ m) : reverseLookupLoop omlId m = some k := by
  induction m with
  | nil => simp at hmem
  | cons p rest ih =>
    obtain ⟨a, b⟩ := p
    by_cases hb : b = omlId
    · have hpair : (a, b) = (k, omlId) :=
        hinj (a, b) (List.mem_cons_self _ _) (k, omlId) hmem (by simpa using hb)
      injection hpair with h1 h2
      simp [reverseLookupLoop, hb, h1]
    · have hmem' : (k, omlId) ∈ rest := by
        rcases List.mem_cons.mp hmem with hEq | h'
        · exact absurd (congrArg Prod.snd hEq).symm hb
        · exact h'
      simp only [reverseLookupLoop, if_neg hb]
      exact ih (fun p hp q hq => hinj p (List.mem_cons_of_mem _ hp) q (List.mem_cons_of_mem _ hq)) hmem'

/-- Claim C9: under injectivity of the mapping, `getReverseMappedId`
returns the unique local id mapped to the given remote id, and `none`
exactly when no mapping entry has that remote id as its value. -/
theorem C9_getReverseMappedId_unique (mc : MappingCache) (et : EntityType) (omlId : Nat)
    (hinj : ∀ p ∈ mc.get et, ∀ q ∈ mc.get et, p.2 = q.2 → p = q) :
    (∀ lbxId, getReverseMappedId mc et omlId = some lbxId ↔ (lbxId, omlId) ∈ mc.get et) ∧
    (getReverseMappedId mc et omlId = none ↔ ∀ p ∈ mc.get et, p.2 ≠ omlId) := by
  constructor
  · intro lbxId
    constructor
    · exact fun h => reverseLookupLoop_some_mem h
    · exact fun h => reverseLookupLoop_mem_some hinj h
  · exact reverseLookupLoop_none

/-- Claim C9, witness: a concrete two-entry channel mapping. -/
theorem C9_getReverseMappedId_witness :
    (∀ lbxId,
        getReverseMappedId
          { advertisers := [], brands := [], channels := [(5, 100), (6, 101)],
            targetAudiences := [] } .channels 100 = some lbxId ↔
        (lbxId, 100) ∈ MappingCache.get
          { advertisers := [], brands := [], channels := [(5, 100), (6, 101)],
            targetAudiences := [] } .channels) ∧
    (getReverseMappedId
        { advertisers := [], brands := [], channels := [(5, 100), (6, 101)],
          targetAudiences := [] } .channels 100 = none ↔
      ∀ p ∈ MappingCache.get
          { advertisers := [], brands := [], channels := [(5, 100), (6, 101)],
            targetAudiences := [] } .channels, p.2 ≠ 100) :=
  C9_getReverseMappedId_unique _ .channels 100 (by decide)

/-! ### C4: write-once memoization of the identifier cache -/

theorem syncLoop_ok_spec (call : ApiCall) (fetchRes : Except String (List OmlRecord))
    (notFound : Nat → String) :
    ∀ (ids : List Nat) (m : EntityMap) (tr tr' : List ApiCall) (m' : EntityMap) (lk : List Nat),
      syncLoop call fetchRes notFound ids m tr = (tr', .ok (m', lk)) →
      (∀ k v, lookupId m k = some v → lookupId m' k = some v) ∧
      (∀ k, k ∈ lk → lookupId m k = none) ∧
      lk.Nodup ∧
      (∀ k, k ∈ lk → (lookupId m' k).isSome = true) ∧
      (∀ k, k ∈ ids → (lookupId m' k).isSome = true)
  | [], m, tr, tr', m', lk, h => by
    simp only [syncLoop, Prod.mk.injEq, Except.ok.injEq] at h
    obtain ⟨rfl, rfl, rfl⟩ := h
    exact ⟨fun k v hv => hv, by simp, List.nodup_nil, by simp, by simp⟩
  | lbxId :: rest, m, tr, tr', m', lk, h => by
    rw [syncLoop.eq_def] at h
    simp only [] at h
    by_cases hm : (lookupId m lbxId).isSome
    · rw [if_pos hm] at h
      obtain ⟨ha, hb, hc, hd, he⟩ := syncLoop_ok_spec call fetchRes notFound rest m tr tr' m' lk h
      refine ⟨ha, hb, hc, hd, ?_⟩
      intro k hk
      rcases List.mem_cons.mp hk with rfl | hk'
      · obtain ⟨v, hv⟩ := Option.isSome_iff_exists.mp hm
        rw [ha k v hv]
        rfl
      · exact he k hk'
    · rw [if_neg hm] at h
      have hnone : lookupId m lbxId = none := Option.not_isSome_iff_eq_none.mp hm
      cases hfetch : fetchRes with
      | error e => rw [hfetch] at h; simp at h
      | ok data =>
        rw [hfetch] at h
        cases data with
        | nil => simp at h
        | cons r ds =>
          simp only [List.head?] at h
          rw [mapSet_of_unmapped r.id hnone] at h
          cases hrec : syncLoop call (Except.ok (r :: ds)) notFound rest
              (m ++ [(lbxId, r.id)]) (tr ++ [call]) with
          | mk tr2 res2 =>
            rw [hrec] at h
            cases res2 with
            | error e => simp at h
            | ok pr =>
              obtain ⟨m2, lk2⟩ := pr
              simp only [Prod.mk.injEq, Except.ok.injEq] at h
              obtain ⟨rfl, rfl, rfl⟩ := h
              rw [← hfetch] at hrec
              obtain ⟨ia, ib, ic, id', ie⟩ :=
                syncLoop_ok_spec call fetchRes notFound rest (m ++ [(lbxId, r.id)])
                  (tr ++ [call]) tr2 m2 lk2 hrec
              have hbaseSelf : lookupId (m ++ [(lbxId, r.id)]) lbxId = some r.id := by
                rw [lookupId_append_of_none _ hnone]
                exact lookupId_singleton_self _ _
              have hmNone : ∀ k, k ∈ lk2 → lookupId m k = none := by
                intro k hk
                cases hmk : lookupId m k with
                | none => rfl
                | some v =>
                  have h1 := lookupId_append_of_some (l := [(lbxId, r.id)]) hmk
                  rw [ib k hk] at h1
                  exact Option.noConfusion h1
              refine ⟨?_, ?_, ?_, ?_, ?_⟩
              · intro k v hv
                exact ia k v (lookupId_append_of_some _ hv)
              · intro k hk
                rcases List.mem_cons.mp hk with rfl | hk'
                · exact hnone
                · exact hmNone k hk'
              · refine List.nodup_cons.mpr ⟨?_, ic⟩
                intro hmem
                have h1 := ib lbxId hmem
                rw [hbaseSelf] at h1
                exact Option.noConfusion h1
              · intro k hk
                rcases List.mem_cons.mp hk with rfl | hk'
                · rw [ia k r.id hbaseSelf]
                  rfl
                · exact id' k hk'
              · intro k hk
                rcases List.mem_cons.mp hk with rfl | hk'
                · rw [ia k r.id hbaseSelf]
                  rfl
                · exact ie k hk'

/-- Claim C4: dictionary sync never overwrites an existing mapping entry,
issues a remote lookup only for locally unmapped ids, at most once per id
within a call, records every looked-up id, and a subsequent overlapping
sync call issues no lookup for any id already looked up. -/
theorem C4_sync_write_once_memoization (et : EntityType) (env : OmlEnv)
    (ids : List Nat) (m : EntityMap) (tr tr' : List ApiCall) (m' : EntityMap) (lk : List Nat)
    (h : syncDict env et ids m tr = (tr', .ok (m', lk))) :
    (∀ k v, lookupId m k = some v → lookupId m' k = some v) ∧
    (∀ k, k ∈ lk → lookupId m k = none) ∧
    lk.Nodup ∧
    (∀ k, k ∈ lk → (lookupId m' k).isSome = true) ∧
    (∀ ids₂ tr₂ tr₂' m₂ lk₂, syncDict env et ids₂ m' tr₂ = (tr₂', .ok (m₂, lk₂)) →
      ∀ k, k ∈ lk → k ∉ lk₂) := by
  have key : ∀ (ids0 : List Nat) (m0 : EntityMap) (tr0 tr0' : List ApiCall)
      (m0' : EntityMap) (lk0 : List Nat),
      syncDict env et ids0 m0 tr0 = (tr0', .ok (m0', lk0)) →
      (∀ k v, lookupId m0 k = some v → lookupId m0' k = some v) ∧
      (∀ k, k ∈ lk0 → lookupId m0 k = none) ∧
      lk0.Nodup ∧
      (∀ k, k ∈ lk0 → (lookupId m0' k).isSome = true) ∧
      (∀ k, k ∈ ids0 → (lookupId m0' k).isSome = true) := by
    cases et <;>
      exact fun ids0 m0 tr0 tr0' m0' lk0 h0 =>
        syncLoop_ok_spec _ _ _ ids0 m0 tr0 tr0' m0' lk0 h0
  obtain ⟨ha, hb, hc, hd, _⟩ := key ids m tr tr' m' lk h
  refine ⟨ha, hb, hc, hd, ?_⟩
  intro ids₂ tr₂ tr₂' m₂ lk₂ h₂ k hk hk₂
  obtain ⟨_, hb₂, _, _, _⟩ := key ids₂ m' tr₂ tr₂' m₂ lk₂ h₂
  have h1 := hd k hk
  rw [hb₂ k hk₂] at h1
  exact Bool.noConfusion h1

/-- Claim C4, witness: advertisers sync over ids `[1, 1, 2]` from an empty
table issues exactly the lookups `[1, 2]`. -/
theorem C4_sync_write_once_witness :
    (∀ k v, lookupId [] k = some v → lookupId [(1, 7), (2, 7)] k = some v) ∧
    (∀ k, k ∈ [1, 2] → lookupId [] k = none) ∧
    ([1, 2] : List Nat).Nodup ∧
    (∀ k, k ∈ [1, 2] → (lookupId [(1, 7), (2, 7)] k).isSome = true) ∧
    (∀ ids₂ tr₂ tr₂' m₂ lk₂,
      syncDict { envBase with advertisersResult := .ok [{ id := 7 }] } .advertisers
          ids₂ [(1, 7), (2, 7)] tr₂ = (tr₂', .ok (m₂, lk₂)) →
      ∀ k, k ∈ [1, 2] → k ∉ lk₂) :=
  C4_sync_write_once_memoization .advertisers
    { envBase with advertisersResult := .ok [{ id := 7 }] }
    [1, 1, 2] [] [] [.getAdvertisers, .getAdvertisers] [(1, 7), (2, 7)] [1, 2] rfl

/-! ### C3: reserveSpots swallows attach failures -/

/-- Claim C3: whenever the media-plan fetch succeeds, `reserveSpots`
returns the empty list — both when no matching commercial or media plan is
found and when the spot-attachment call fails; in the failure case the
console output contains the reproducible curl request description. -/
theorem C3_reserveSpots_swallows (cfg : IntegrationConfig) (env : OmlEnv)
    (block : Option Block) (tr : List ApiCall) (mps : List Mediaplan)
    (hmps : env.mediaplansResult = .ok mps) :
    ∃ tr' con, reserveSpots cfg env block tr = (tr', con, .ok []) ∧
      ∀ mp c e, mps.find? (fun el => el.id == 42338) = some mp →
        mp.commercials.bind List.head? = some c →
        env.addSpotResult (block.map (fun b => b.id))
            { commercial_id := c.id, mediaplan_id := mp.id } = .error e →
        ("Запит, що викликав помилку: " ++
          curlString cfg.omlBaseUrl (env.token.getD "TOKEN_NOT_AVAILABLE")
            (block.map (fun b => b.id)) c.id mp.id) ∈ con := by
  unfold reserveSpots
  rw [hmps]
  dsimp only
  cases hfind : mps.find? (fun el => el.id == 42338) with
  | none =>
    refine ⟨_, _, rfl, ?_⟩
    intro mp c e hmp _ _
    exact Option.noConfusion hmp
  | some mp0 =>
    simp only [Option.some_bind]
    cases hc : mp0.commercials.bind List.head? with
    | none =>
      refine ⟨_, _, rfl, ?_⟩
      intro mp c e hmp hcc _
      injection hmp with hmp1
      subst hmp1
      rw [hcc] at hc
      exact Option.noConfusion hc
    | some c0 =>
      dsimp only
      cases hadd : env.addSpotResult (block.map (fun b => b.id))
          { commercial_id := c0.id, mediaplan_id := mp0.id } with
      | ok b =>
        refine ⟨_, _, rfl, ?_⟩
        intro mp c e hmp hcc he
        injection hmp with hmp1
        subst hmp1
        rw [hc] at hcc
        injection hcc with hcc1
        subst hcc1
        rw [hadd] at he
        exact Except.noConfusion he
      | error e0 =>
        refine ⟨_, _, rfl, ?_⟩
        intro mp c e hmp hcc _
        injection hmp with hmp1
        subst hmp1
        rw [hc] at hcc
        injection hcc with hcc1
        subst hcc1
        exact List.mem_cons_of_mem _ (List.mem_cons_self _ _)

/-- Claim C3, witness: media plan 42338 with commercial 77 present and the
attach call rejected with message `boom`; the curl line is logged and the
result is still the empty list. -/
theorem C3_reserveSpots_witness :
    ∃ tr' con, reserveSpots cfgBase envAttachFail none [] = (tr', con, .ok []) ∧
      ∀ mp c e, [mp42338].find? (fun el => el.id == 42338) = some mp →
        mp.commercials.bind List.head? = some c →
        envAttachFail.addSpotResult ((none : Option Block).map (fun b => b.id))
            { commercial_id := c.id, mediaplan_id := mp.id } = .error e →
        ("Запит, що викликав помилку: " ++
          curlString cfgBase.omlBaseUrl (envAttachFail.token.getD "TOKEN_NOT_AVAILABLE")
            ((none : Option Block).map (fun b => b.id)) c.id mp.id) ∈ con :=
  C3_reserveSpots_swallows cfgBase envAttachFail none [] [mp42338] rfl

/-! ### C2 and C5: outcome shape of handleCampaignPublish -/

theorem getLast?_append_singleton {α : Type} (l : List α) (x : α) :
    (l ++ [x]).getLast? = some x := by
  induction l with
  | nil => rfl
  | cons a t ih =>
    cases t with
    | nil => rfl
    | cons b t' =>
      rw [List.cons_append, List.cons_append, List.getLast?_cons_cons]
      rw [List.cons_append] at ih
      exact ih

/-- Claim C2: whenever any pipeline step throws, `handleCampaignPublish`
catches it and returns a failed result carrying the thrown message and the
`getErrorDetails` digest of the progress log (its last 3 entries, the
appended error entry included); the final log entry has step `error` and
progress `-1`. -/
theorem C2_handleCampaignPublish_failed (cfg : IntegrationConfig) (env : OmlEnv)
    (campaign : LightboxTVCampaign) (creatives : List LightboxTVCreative) (s : SvcState)
    (msg : String) (s' : SvcState) (tr : List ApiCall) (con : List String)
    (hrun : runPipeline cfg env campaign creatives
        (logProgress s "start" 0 "Початок інтеграції кампанії") [] = (s', tr, con, .error msg)) :
    handleCampaignPublish cfg env campaign creatives s =
      ({ success := false, status := "failed", error := some msg,
         details := some (getErrorDetails msg
           (logProgress s' "error" (-1) ("Помилка інтеграції: " ++ msg)).progressLog) },
       logProgress s' "error" (-1) ("Помилка інтеграції: " ++ msg), tr, con) ∧
    ((handleCampaignPublish cfg env campaign creatives s).2.1.progressLog).getLast? =
      some { step := "error", progress := -1, message := "Помилка інтеграції: " ++ msg,
             timestamp := s'.clock } := by
  have h1 : handleCampaignPublish cfg env campaign creatives s =
      ({ success := false, status := "failed", error := some msg,
         details := some (getErrorDetails msg
           (logProgress s' "error" (-1) ("Помилка інтеграції: " ++ msg)).progressLog) },
       logProgress s' "error" (-1) ("Помилка інтеграції: " ++ msg), tr, con) := by
    unfold handleCampaignPublish
    dsimp only
    rw [hrun]
  refine ⟨h1, ?_⟩
  rw [h1]
  exact getLast?_append_singleton _ _

/-- Claim C2, witness: the authentication call is rejected; the result is
failed with the wrapped message and the log ends in the error entry. -/
theorem C2_handleCampaignPublish_witness :
    ∃ s' tr con,
      handleCampaignPublish cfgBase envAuthFail campaignNoPlacements [] initialServiceState =
        ({ success := false, status := "failed",
           error := some "Помилка аутентифікації в OML: Невірні облікові дані",
           details := some (getErrorDetails "Помилка аутентифікації в OML: Невірні облікові дані"
             (logProgress s' "error" (-1)
               ("Помилка інтеграції: " ++ "Помилка аутентифікації в OML: Невірні облікові дані")).progressLog) },
         logProgress s' "error" (-1)
           ("Помилка інтеграції: " ++ "Помилка аутентифікації в OML: Невірні облікові дані"), tr, con) ∧
      ((handleCampaignPublish cfgBase envAuthFail campaignNoPlacements []
          initialServiceState).2.1.progressLog).getLast? =
        some { step := "error", progress := -1,
               message := "Помилка інтеграції: " ++ "Помилка аутентифікації в OML: Невірні облікові дані",
               timestamp := s'.clock } :=
  ⟨_, _, _, C2_handleCampaignPublish_failed cfgBase envAuthFail campaignNoPlacements []
    initialServiceState _ _ _ _ rfl⟩

/-- Claim C5 (amended): when every step succeeds the service returns the
fixed complete result — success, status `complete`, the details message —
with no id lists (the id-carrying fields are commented out in the source). -/
theorem C5_handleCampaignPublish_complete (cfg : IntegrationConfig) (env : OmlEnv)
    (campaign : LightboxTVCampaign) (creatives : List LightboxTVCreative) (s s' : SvcState)
    (tr : List ApiCall) (con : List String)
    (hrun : runPipeline cfg env campaign creatives
        (logProgress s "start" 0 "Початок інтеграції кампанії") [] = (s', tr, con, .ok ())) :
    handleCampaignPublish cfg env campaign creatives s =
      ({ success := true, status := "complete",
         details := some "Інтеграція кампанії успішно завершена" },
       logProgress s' "complete" 100 "Інтеграція успішно завершена", tr, con) ∧
    (handleCampaignPublish cfg env campaign creatives s).1.commercial_ids = none ∧
    (handleCampaignPublish cfg env campaign creatives s).1.spot_ids = none := by
  have h1 : handleCampaignPublish cfg env campaign creatives s =
      ({ success := true, status := "complete",
         details := some "Інтеграція кампанії успішно завершена" },
       logProgress s' "complete" 100 "Інтеграція успішно завершена", tr, con) := by
    unfold handleCampaignPublish
    dsimp only
    rw [hrun]
  refine ⟨h1, ?_, ?_⟩ <;> rw [h1]

/-- Claim C5, counterexample: a fully successful concrete run that matched
commercial 201, yet the returned complete result carries no commercial ids
and no spot ids. -/
theorem C5_counterexample :
    (handleCampaignPublish cfgBase envComplete campaignCh9 [cr201]
        initialServiceState).1.success = true ∧
    (handleCampaignPublish cfgBase envComplete campaignCh9 [cr201]
        initialServiceState).1.status = "complete" ∧
    (findAndMapCommercials envComplete [cr201] []).2 = .ok [com201] ∧
    (handleCampaignPublish cfgBase envComplete campaignCh9 [cr201]
        initialServiceState).1.commercial_ids = none ∧
    (handleCampaignPublish cfgBase envComplete campaignCh9 [cr201]
        initialServiceState).1.spot_ids = none :=
  ⟨rfl, rfl, rfl, rfl, rfl⟩

/-- Claim C5, witness: the same successful concrete run through the amended
theorem. -/
theorem C5_handleCampaignPublish_witness :
    ∃ s' tr con,
      handleCampaignPublish cfgBase envComplete campaignCh9 [cr201] initialServiceState =
        ({ success := true, status := "complete",
           details := some "Інтеграція кампанії успішно завершена" },
         logProgress s' "complete" 100 "Інтеграція успішно завершена", tr, con) ∧
      (handleCampaignPublish cfgBase envComplete campaignCh9 [cr201]
          initialServiceState).1.commercial_ids = none ∧
      (handleCampaignPublish cfgBase envComplete campaignCh9 [cr201]
          initialServiceState).1.spot_ids = none :=
  ⟨_, _, _, C5_handleCampaignPublish_complete cfgBase envComplete campaignCh9 [cr201]
    initialServiceState _ _ _ rfl⟩

/-! ### C8: per-program cap and grid iteration order of the block search -/

theorem blocksLoop_ok {env : OmlEnv} {f : Nat → Block}
    (hB : ∀ n, env.blockByIdResult n = .ok (f n)) (ch prId : Nat) :
    ∀ (bws : List BlockWithGrps) (tr : List ApiCall),
      blocksLoop env ch prId bws tr =
        (tr ++ bws.map (fun bw => ApiCall.getBlockById bw.block_id),
         .ok (bws.map (fun bw => f bw.block_id)))
  | [], tr => by simp [blocksLoop]
  | bw :: rest, tr => by
    rw [blocksLoop.eq_def]
    dsimp only
    rw [hB bw.block_id]
    dsimp only
    rw [blocksLoop_ok hB ch prId rest (tr ++ [ApiCall.getBlockById bw.block_id])]
    simp

theorem availableBlocks_match (pr : ProgramRelease) :
    (match pr.blocks with
      | some bs => if bs.length > 0 then bs.take 5 else []
      | none => []) = availableBlocksOf pr := by
  cases hb : pr.blocks with
  | none => simp [availableBlocksOf, hb]
  | some bs =>
    cases bs with
    | nil => simp [availableBlocksOf, hb]
    | cons b bs' => simp [availableBlocksOf, hb]

theorem programReleasesLoop_ok {env : OmlEnv} {f : Nat → Block}
    (hB : ∀ n, env.blockByIdResult n = .ok (f n)) (ch : Nat) :
    ∀ (prs : List ProgramRelease) (tr : List ApiCall),
      programReleasesLoop env ch prs tr =
        (tr ++ prs.flatMap (fun pr =>
          (availableBlocksOf pr).map (fun bw => ApiCall.getBlockById bw.block_id)),
         .ok (prs.flatMap (fun pr => (availableBlocksOf pr).map (fun bw => f bw.block_id))))
  | [], tr => by simp [programReleasesLoop]
  | pr :: rest, tr => by
    rw [programReleasesLoop.eq_def]
    dsimp only
    rw [availableBlocks_match pr]
    rw [blocksLoop_ok hB ch pr.program_release_id (availableBlocksOf pr) tr]
    dsimp only
    rw [programReleasesLoop_ok hB ch rest _]
    simp

theorem gridLoop_ok {env : OmlEnv} {f : Nat → Block}
    (hB : ∀ n, env.blockByIdResult n = .ok (f n)) (ch : Nat) :
    ∀ (grid : BookingGrid) (tr : List ApiCall),
      gridLoop env ch grid tr =
        (tr ++ gridBlockCalls grid, .ok (gridBlocksResult f grid))
  | [], tr => by simp [gridLoop, gridBlockCalls, gridBlocksResult]
  | (d, prs) :: rest, tr => by
    rw [gridLoop.eq_def]
    dsimp only
    rw [programReleasesLoop_ok hB ch prs tr]
    dsimp only
    rw [gridLoop_ok hB ch rest _]
    simp [gridBlockCalls, gridBlocksResult]

/-- Claim C8: with channel 9 mapped and the booking grid fetched, the block
search returns exactly the grid-iteration-order flattening — dates, then
program releases, then the first-5-capped block entries, each enriched by a
per-block lookup — so every program-release entry contributes at most 5
records. -/
theorem C8_findBlocks_cap_and_order (env : OmlEnv) (mc : MappingCache)
    (start_date end_date : String) (tr : List ApiCall) (ch : Nat) (grid : BookingGrid)
    (f : Nat → Block)
    (hch : lookupId (mc.get .channels) 9 = some ch)
    (hgrid : env.channelBookingResult ch start_date end_date = .ok grid)
    (hB : ∀ n, env.blockByIdResult n = .ok (f n)) :
    findBlocksForPlacement env mc start_date end_date tr =
      (tr ++ [ApiCall.getChannelBooking ch] ++ gridBlockCalls grid,
       .ok (gridBlocksResult f grid)) ∧
    ∀ d prs, (d, prs) ∈ grid → ∀ pr ∈ prs,
      ((availableBlocksOf pr).map (fun bw => f bw.block_id)).length ≤ 5 := by
  constructor
  · unfold findBlocksForPlacement getMappedIdOrThrow
    rw [hch]
    dsimp only
    rw [hgrid]
    dsimp only
    rw [gridLoop_ok hB ch grid _]
  · intro d prs _ pr _
    simp only [List.length_map, availableBlocksOf, List.length_take]
    omega

/-- Claim C8, witness: a grid with one program release holding 7 block
entries yields exactly its first 5, in order, enriched by id. -/
theorem C8_findBlocks_witness :
    findBlocksForPlacement envGridSeven
        { advertisers := [], brands := [], channels := [(9, 13)], targetAudiences := [] }
        "2025-04-01" "2025-04-30" [] =
      ([ApiCall.getChannelBooking 13] ++ gridBlockCalls gridSeven,
       .ok (gridBlocksResult (fun n => { id := n }) gridSeven)) ∧
    ∀ d prs, (d, prs) ∈ gridSeven → ∀ pr ∈ prs,
      ((availableBlocksOf pr).map (fun bw =>
        ({ id := bw.block_id } : Block))).length ≤ 5 :=
  C8_findBlocks_cap_and_order envGridSeven
    { advertisers := [], brands := [], channels := [(9, 13)], targetAudiences := [] }
    "2025-04-01" "2025-04-30" [] 13 gridSeven (fun n => { id := n }) rfl rfl (fun _ => rfl)

/-! ### C6: brand lookup failure aborts the pipeline before later steps -/

/-- Claim C6: when a referenced brand id has no remote match (the brand
listing returns no records), the run fails at dictionary sync with the
wrapped lookup-failure message and no later-step call — block search, block
detail, commercial catalog, media plans or spot attachment — is issued. -/
theorem C6_brand_lookup_aborts (cfg : IntegrationConfig) (env : OmlEnv)
    (campaign : LightboxTVCampaign) (creatives : List LightboxTVCreative)
    (b : Nat) (bs : List Nat) (a : OmlRecord) (la : List OmlRecord)
    (hlogin : env.loginResult = .ok ())
    (hadv : env.advertisersResult = .ok (a :: la))
    (hbr : env.brandsResult = .ok [])
    (hb : dedupFirst (campaign.placements.map (fun p => p.brand_id) ++
            creatives.map (fun c => c.brand_id)) = b :: bs) :
    (handleCampaignPublish cfg env campaign creatives initialServiceState).1.success = false ∧
    (handleCampaignPublish cfg env campaign creatives initialServiceState).1.status = "failed" ∧
    (handleCampaignPublish cfg env campaign creatives initialServiceState).1.error =
      some ("Помилка синхронізації довідників: " ++ brandNotFoundMsg b) ∧
    ((handleCampaignPublish cfg env campaign creatives initialServiceState).2.2.1).all
      (fun call => !call.isLaterStep) = true := by
  have hrun : runPipeline cfg env campaign creatives
      (logProgress initialServiceState "start" 0 "Початок інтеграції кампанії") [] =
      (logProgress (logProgress initialServiceState "start" 0 "Початок інтеграції кампанії")
         "authentication" 5 "Аутентифікація в OML успішна",
       [ApiCall.login, ApiCall.getAdvertisers, ApiCall.getBrands], [],
       .error ("Помилка синхронізації довідників: " ++ brandNotFoundMsg b)) := by
    simp [runPipeline, authenticate, hlogin, syncReferenceDictionaries, syncAdvertisers,
      syncBrands, syncLoop, hadv, hbr, hb, lookupId, mapSet, logProgress,
      initialServiceState]
  unfold handleCampaignPublish
  dsimp only
  rw [hrun]
  exact ⟨rfl, rfl, rfl, rfl⟩

/-- Claim C6, witness: brand 1 referenced by the placement has no remote
match; the run aborts with the wrapped message and no later-step calls. -/
theorem C6_brand_lookup_witness :
    (handleCampaignPublish cfgBase { envComplete with brandsResult := .ok [] } campaignCh9
        [cr201] initialServiceState).1.success = false ∧
    (handleCampaignPublish cfgBase { envComplete with brandsResult := .ok [] } campaignCh9
        [cr201] initialServiceState).1.status = "failed" ∧
    (handleCampaignPublish cfgBase { envComplete with brandsResult := .ok [] } campaignCh9
        [cr201] initialServiceState).1.error =
      some ("Помилка синхронізації довідників: " ++ brandNotFoundMsg 1) ∧
    ((handleCampaignPublish cfgBase { envComplete with brandsResult := .ok [] } campaignCh9
        [cr201] initialServiceState).2.2.1).all (fun call => !call.isLaterStep) = true :=
  C6_brand_lookup_aborts cfgBase { envComplete with brandsResult := .ok [] } campaignCh9
    [cr201] 1 [] { id := 11 } [] rfl rfl rfl rfl

/-! ### C10: empty block search result is not guarded in reserveSpots -/

/-- Claim C10: with an empty booking grid the block search returns no
blocks, yet the run does not fail there — `blocksForPlacement[0]!` passes
the missing block (`undefined`, here `none`) into `reserveSpots`, and when
media plan 42338 with a first commercial exists, the spot-attachment call
is issued with an undefined block id; the run still ends successfully. -/
theorem C10_missing_block_not_guarded (cfg : IntegrationConfig) (mps : List Mediaplan)
    (mp : Mediaplan) (c : Commercial) (addRes : Except String Block)
    (hfind : mps.find? (fun el => el.id == 42338) = some mp)
    (hc : mp.commercials.bind List.head? = some c) :
    (handleCampaignPublish cfg (envNoBlocks mps addRes) campaignCh9 []
        initialServiceState).1.success = true ∧
    ApiCall.addSpotToBlock none c.id mp.id ∈
      (handleCampaignPublish cfg (envNoBlocks mps addRes) campaignCh9 []
        initialServiceState).2.2.1 := by
  cases addRes with
  | ok blk =>
    simp [handleCampaignPublish, runPipeline, authenticate, envNoBlocks, envBase,
      syncReferenceDictionaries, syncAdvertisers, syncBrands, syncChannels,
      syncTargetAudiences, syncLoop, mapSet, lookupId, dedupFirst, findBlocksForPlacement,
      getMappedIdOrThrow, gridLoop, findAndMapCommercials, findAndMapLoop, reserveSpots,
      hfind, hc, logProgress, initialServiceState, campaignCh9, MappingCache.get]
  | error e =>
    simp [handleCampaignPublish, runPipeline, authenticate, envNoBlocks, envBase,
      syncReferenceDictionaries, syncAdvertisers, syncBrands, syncChannels,
      syncTargetAudiences, syncLoop, mapSet, lookupId, dedupFirst, findBlocksForPlacement,
      getMappedIdOrThrow, gridLoop, findAndMapCommercials, findAndMapLoop, reserveSpots,
      hfind, hc, logProgress, initialServiceState, campaignCh9, MappingCache.get]

/-- Claim C10, witness: media plan 42338 with commercial 77 and a rejected
attach call — the attach is still issued with an undefined block id and the
run reports success. -/
theorem C10_missing_block_witness :
    (handleCampaignPublish cfgBase (envNoBlocks [mp42338] (.error "x")) campaignCh9 []
        initialServiceState).1.success = true ∧
    ApiCall.addSpotToBlock none 77 42338 ∈
      (handleCampaignPublish cfgBase (envNoBlocks [mp42338] (.error "x")) campaignCh9 []
        initialServiceState).2.2.1 :=
  C10_missing_block_not_guarded cfgBase [mp42338] mp42338 { id := 77 } (.error "x") rfl rfl

/-! ### C7: scope of the identifier cache and progress log -/

theorem syncReferenceDictionaries_mono (env : OmlEnv) (campaign : LightboxTVCampaign)
    (creatives : List LightboxTVCreative) (mc : MappingCache) (tr tr2 : List ApiCall)
    (mc2 : MappingCache)
    (h : syncReferenceDictionaries env campaign creatives mc tr = (tr2, .ok mc2)) :
    ∀ et k v, lookupId (mc.get et) k = some v → lookupId (mc2.get et) k = some v := by
  unfold syncReferenceDictionaries at h
  split at h
  · simp at h
  · rename_i tr1 mAdv lkA h1
    try dsimp only at h
    split at h
    · simp at h
    · rename_i trB mBr lkB h2
      try dsimp only at h
      split at h
      · simp at h
      · rename_i trC mCh lkC h3
        try dsimp only at h
        split at h
        · simp at h
        · rename_i trD mTa lkT h4
          simp only [Prod.mk.injEq, Except.ok.injEq] at h
          obtain ⟨rfl, rfl⟩ := h
          intro et k v hv
          have pA := (syncLoop_ok_spec _ _ _ _ _ _ _ _ _ h1).1
          have pB := (syncLoop_ok_spec _ _ _ _ _ _ _ _ _ h2).1
          have pC := (syncLoop_ok_spec _ _ _ _ _ _ _ _ _ h3).1
          have pT := (syncLoop_ok_spec _ _ _ _ _ _ _ _ _ h4).1
          cases et with
          | advertisers => exact pA k v hv
          | brands => exact pB k v hv
          | channels => exact pC k v hv
          | targetAudiences => exact pT k v hv

theorem logExt_refl (s : SvcState) : ∃ tl, s.progressLog = s.progressLog ++ tl :=
  ⟨[], by simp⟩

theorem logExt_step {s : SvcState} {base : List IntegrationProgress}
    (h : ∃ tl, s.progressLog = base ++ tl) (step : String) (p : Int) (m : String) :
    ∃ tl, (logProgress s step p m).progressLog = base ++ tl := by
  obtain ⟨tl, htl⟩ := h
  exact ⟨tl ++ [{ step := step, progress := p, message := m, timestamp := s.clock }],
    by simp [logProgress, htl]⟩

theorem logProgress_mappingCache (s : SvcState) (step : String) (p : Int) (m : String) :
    (logProgress s step p m).mappingCache = s.mappingCache := rfl

theorem logExt_cache {s : SvcState} {base : List IntegrationProgress}
    (h : ∃ tl, s.progressLog = base ++ tl) (mc : MappingCache) :
    ∃ tl, (SvcState.mk mc s.progressLog s.clock).progressLog = base ++ tl := h

theorem runPipeline_state_mono (cfg : IntegrationConfig) (env : OmlEnv)
    (campaign : LightboxTVCampaign) (creatives : List LightboxTVCreative)
    (s : SvcState) (tr : List ApiCall) :
    (∃ tl, (runPipeline cfg env campaign creatives s tr).1.progressLog =
      s.progressLog ++ tl) ∧
    (∀ et k v, lookupId (s.mappingCache.get et) k = some v →
      lookupId ((runPipeline cfg env campaign creatives s tr).1.mappingCache.get et) k
        = some v) := by
  unfold runPipeline
  rcases hauth : authenticate env tr with ⟨tr1, rauth⟩
  cases rauth with
  | error e =>
    exact ⟨logExt_refl s, fun et k v hv => hv⟩
  | ok u =>
    dsimp only
    simp only [logProgress_mappingCache]
    rcases hsync : syncReferenceDictionaries env campaign creatives s.mappingCache tr1 with
      ⟨tr2, rsync⟩
    cases rsync with
    | error e =>
      exact ⟨logExt_step (logExt_refl s) _ _ _, fun et k v hv => hv⟩
    | ok mc2 =>
      dsimp only
      have hmono2 : ∀ et k v, lookupId (s.mappingCache.get et) k = some v →
          lookupId (mc2.get et) k = some v :=
        syncReferenceDictionaries_mono env campaign creatives _ tr1 tr2 mc2 hsync
      rcases hfb : findBlocksForPlacement env mc2 campaign.start_date campaign.end_date tr2 with
        ⟨tr3, rfb⟩
      cases rfb with
      | error e =>
        exact ⟨logExt_step (logExt_cache (logExt_step (logExt_refl s) _ _ _) mc2) _ _ _,
          hmono2⟩
      | ok blocks =>
        dsimp only
        rcases hfm : findAndMapCommercials env creatives tr3 with ⟨tr4, rfm⟩
        cases rfm with
        | error e =>
          exact ⟨logExt_step (logExt_step (logExt_cache (logExt_step (logExt_refl s) _ _ _)
            mc2) _ _ _) _ _ _, hmono2⟩
        | ok commercials =>
          dsimp only
          rcases hrs : reserveSpots cfg env blocks.head? tr4 with ⟨tr5, con, rres⟩
          cases rres with
          | error e =>
            exact ⟨logExt_step (logExt_step (logExt_step (logExt_cache (logExt_step
              (logExt_refl s) _ _ _) mc2) _ _ _) _ _ _) _ _ _, hmono2⟩
          | ok spots =>
            exact ⟨logExt_step (logExt_step (logExt_step (logExt_step (logExt_cache
              (logExt_step (logExt_refl s) _ _ _) mc2) _ _ _) _ _ _) _ _ _) _ _ _, hmono2⟩

/-- Claim C7 (amended): the identifier cache and progress log are scoped to
the service instance, not to one invocation — they are created empty by the
constructor, every invocation appends to the instance's progress log, and
every mapping entry present before an invocation is still present (with the
same value) afterwards, so state set by one invocation persists into later
invocations on the same instance. -/
theorem C7_state_instance_scoped (cfg : IntegrationConfig) (env : OmlEnv)
    (campaign : LightboxTVCampaign) (creatives : List LightboxTVCreative) (s : SvcState) :
    (initialServiceState.mappingCache =
        { advertisers := [], brands := [], channels := [], targetAudiences := [] } ∧
      initialServiceState.progressLog = []) ∧
    (∃ tl, (handleCampaignPublish cfg env campaign creatives s).2.1.progressLog =
      s.progressLog ++ tl) ∧
    (∀ et k v, lookupId (s.mappingCache.get et) k = some v →
      lookupId ((handleCampaignPublish cfg env campaign creatives s).2.1.mappingCache.get et) k
        = some v) := by
  have hmono := runPipeline_state_mono cfg env campaign creatives
    (logProgress s "start" 0 "Початок інтеграції кампанії") []
  refine ⟨⟨rfl, rfl⟩, ?_, ?_⟩
  · unfold handleCampaignPublish
    dsimp only
    rcases hr : runPipeline cfg env campaign creatives
        (logProgress s "start" 0 "Початок інтеграції кампанії") [] with ⟨s', tr', con, r⟩
    rw [hr] at hmono
    obtain ⟨⟨tl, hlog⟩, _⟩ := hmono
    have h0 : ∃ tl2, s'.progressLog = s.progressLog ++ tl2 :=
      ⟨{ step := "start", progress := 0, message := "Початок інтеграції кампанії",
         timestamp := s.clock } :: tl, by
        rw [hlog]
        simp [logProgress]⟩
    cases r with
    | ok u => exact logExt_step h0 _ _ _
    | error msg => exact logExt_step h0 _ _ _
  · unfold handleCampaignPublish
    dsimp only
    rcases hr : runPipeline cfg env campaign creatives
        (logProgress s "start" 0 "Початок інтеграції кампанії") [] with ⟨s', tr', con, r⟩
    rw [hr] at hmono
    obtain ⟨_, hcache⟩ := hmono
    intro et k v hv
    cases r with
    | ok u => exact hcache et k v hv
    | error msg => exact hcache et k v hv

/-- Claim C7, counterexample: on the same service instance a second
invocation is not independent of the first — the first run maps advertiser
1, so the second run skips the advertiser lookup and its remote-call trace
differs from a fresh run's trace. -/
theorem C7_counterexample :
    (handleCampaignPublish cfgBase envRepeat campaignNoPlacements []
        (handleCampaignPublish cfgBase envRepeat campaignNoPlacements []
          initialServiceState).2.1).2.2.1 ≠
    (handleCampaignPublish cfgBase envRepeat campaignNoPlacements []
        initialServiceState).2.2.1 := by decide

/-- Claim C7, witness: a mapping entry present before an invocation is
still observable afterwards on the same instance. -/
theorem C7_state_instance_witness :
    lookupId (((handleCampaignPublish cfgBase envRepeat campaignNoPlacements []
        { mappingCache := { advertisers := [(1, 7)], brands := [], channels := [],
                            targetAudiences := [] },
          progressLog := [], clock := 0 }).2.1.mappingCache).get EntityType.advertisers) 1
      = some 7 :=
  (C7_state_instance_scoped cfgBase envRepeat campaignNoPlacements []
    { mappingCache := { advertisers := [(1, 7)], brands := [], channels := [],
                        targetAudiences := [] },
      progressLog := [], clock := 0 }).2.2 EntityType.advertisers 1 7 rfl

end OmlIntegration
